import Mathlib

/-!
Verification of the cnvrtr video-processing pipeline.

Shallow embedding of the TypeScript sources:
* `src/src/lib/utils/ffmpeg.ts`        — `VideoProcessor` (clamping, dual-format fallback)
* `src/src/lib/stores/video.ts`        — task store operations
* `src/src/lib/services/videoProcessing.ts` (second, current revision)
                                        — `VideoProcessingService` orchestrator
* `src/src/lib/utils/googleDrive.ts`   — resumable upload chunk loop
* `src/unnamed/part_008`               — `TinyUrlService.shortenUrl` (current revision)

JavaScript numbers are modelled by `JSNum` (NaN / ±Infinity / a finite rational);
progress percentages live in `ℚ`.  Asynchronous external calls are modelled by
environments recording each call's outcome, so a run of the orchestrator is a
pure function from its environment to the sequence of store operations it emits.
-/

deriving instance DecidableEq for Except

namespace Cnvrtr

/-! ## JavaScript numbers and progress clamping (`ffmpeg.ts`) -/

/-- A JavaScript number: NaN, an infinity, or a finite value (modelled as `ℚ`). -/
inductive JSNum where
  | nan
  | posInf
  | negInf
  | fin (q : ℚ)
deriving Repr, DecidableEq

/-- JS multiplication of a number by the literal 100 (`event.progress * 100`):
NaN and infinities are absorbing, finite values multiply exactly. -/
def JSNum.mul100 : JSNum → JSNum
  | .nan => .nan
  | .posInf => .posInf
  | .negInf => .negInf
  | .fin q => .fin (q * 100)

/-- `VideoProcessor.clampProgress` (ffmpeg.ts lines 8–11):
`if (Number.isNaN(value) || !Number.isFinite(value)) return 0;
 return Math.max(0, Math.min(100, value));` -/
def clampProgress : JSNum → ℚ
  | .nan => 0
  | .posInf => 0
  | .negInf => 0
  | .fin q => max 0 (min 100 q)

/-- The value handed to `compressVideo`'s `onProgress` callback for a raw
encoder progress event `e` (ffmpeg.ts lines 136–140):
`onProgress(this.clampProgress(event.progress * 100))`. -/
def forwardedProgress (e : JSNum) : ℚ :=
  clampProgress e.mul100

/-! ## Task store (`src/src/lib/stores/video.ts`) -/

/-- Task lifecycle states of `ProcessingTask.status`. -/
inductive Status where
  | pending
  | processing
  | completed
  | error
deriving Repr, DecidableEq

/-- A browser `File`: the fields the pipeline reads (name, byte size, MIME type). -/
structure VFile where
  name : String
  size : ℕ
  type : String
deriving Repr, DecidableEq

/-- `ProcessingTask` (video.ts lines 3–14).  Optional fields are `Option`;
`shareUrl` may be explicitly `null` in JS, which we conflate with absent here
(the distinction is invisible to every claim). -/
structure ProcessingTask where
  id : String
  file : VFile
  status : Status
  progress : ℚ
  errMsg : Option String := none
  originalSize : ℕ
  compressedSize : Option ℕ := none
  processingTime : Option ℕ := none
  downloadUrl : Option String := none
  shareUrl : Option String := none
deriving Repr, DecidableEq

/-- The task created by `addToQueue` (video.ts lines 48–61).  The random
`task_${Date.now()}_${…}` id is nondeterministic, so it is a parameter. -/
def newTask (taskId : String) (file : VFile) : ProcessingTask :=
  { id := taskId, file := file, status := .pending, progress := 0,
    originalSize := file.size }

/-- `addToQueue` appends the fresh pending task to the queue. -/
def addToQueue (taskId : String) (file : VFile)
    (queue : List ProcessingTask) : List ProcessingTask :=
  queue ++ [newTask taskId file]

/-- `updateTaskProgress(taskId, progress, status?)` (video.ts lines 63–71):
maps over the queue, overwriting `progress` (and `status` when given) of the
task with the matching id. -/
def updateTaskProgress (taskId : String) (progress : ℚ) (status : Option Status)
    (queue : List ProcessingTask) : List ProcessingTask :=
  queue.map fun task =>
    if task.id = taskId then
      { task with progress := progress, status := status.getD task.status }
    else task

/-- The `result : Partial<ProcessingTask>` argument of `completeTask`:
`none` means the key is absent from the object (so the old value survives the
spread); for `shareUrl` the inner `Option` is the possibly-null value. -/
structure TaskResult where
  compressedSize : Option ℕ := none
  processingTime : Option ℕ := none
  downloadUrl : Option String := none
  shareUrl : Option (Option String) := none
  errMsg : Option String := none
deriving Repr, DecidableEq

/-- Key override of a JS object spread: a present key (`some v`) overwrites,
an absent key keeps the old value. -/
def overrideField {α : Type} (keyed old : Option α) : Option α :=
  match keyed with
  | some v => some v
  | none => old

/-- The JS spread `{ ...task, ...result }`: keys present in `result` overwrite. -/
def applyResult (task : ProcessingTask) (result : TaskResult) : ProcessingTask :=
  { task with
    compressedSize := overrideField result.compressedSize task.compressedSize
    processingTime := overrideField result.processingTime task.processingTime
    downloadUrl := overrideField result.downloadUrl task.downloadUrl
    shareUrl := result.shareUrl.getD task.shareUrl
    errMsg := overrideField result.errMsg task.errMsg }

/-- `completeTask(taskId, result)` (video.ts lines 73–81):
`{ ...task, ...result, status: 'completed', progress: 100 }` on the match. -/
def completeTask (taskId : String) (result : TaskResult)
    (queue : List ProcessingTask) : List ProcessingTask :=
  queue.map fun task =>
    if task.id = taskId then
      { applyResult task result with status := .completed, progress := 100 }
    else task

/-- `failTask(taskId, errorMessage?)` (video.ts lines 83–91): sets status
`error` and, when a message is supplied, the error field. -/
def failTask (taskId : String) (errorMessage : Option String)
    (queue : List ProcessingTask) : List ProcessingTask :=
  queue.map fun task =>
    if task.id = taskId then
      { task with
        status := .error
        errMsg := overrideField errorMessage task.errMsg }
    else task

/-- `removeTask(taskId)` (video.ts lines 93–95): filters the task out. -/
def removeTask (taskId : String) (queue : List ProcessingTask) :
    List ProcessingTask :=
  queue.filter fun task => task.id ≠ taskId

/-! ## Compression with dual-format fallback (`ffmpeg.ts` lines 142–191) -/

/-- The two encoder output containers. -/
inductive VideoFormat where
  | webm
  | mp4
deriving Repr, DecidableEq

/-- The alternate format tried when the preferred one fails. -/
def altFormat : VideoFormat → VideoFormat
  | .webm => .mp4
  | .mp4 => .webm

/-- Outcomes of the external effects of one `VideoProcessor.compressVideo`
run: the two encoder executions (`compressToWebM` / `compressToMP4`) and the
`readFile(normalizedInputName)` used by the both-failed fallback (packaged as
the returned `video/mp4` `File`). -/
structure EncodeEnv where
  webmOutcome : Except String VFile
  mp4Outcome : Except String VFile
  normalizedOutcome : Except String VFile
deriving Repr, DecidableEq

/-- The encoder execution outcome for a given output format. -/
def encodeOutcome (env : EncodeEnv) : VideoFormat → Except String VFile
  | .webm => env.webmOutcome
  | .mp4 => env.mp4Outcome

/-- `VideoProcessor.compressVideo` encoder-selection logic (ffmpeg.ts lines
142–191), returning the result together with the ordered list of encoder
attempts.  The preferred format is tried first; on its failure the other
format is tried; if both fail the normalized/remuxed MP4 is returned as a
degraded result, and only a failure to read it back surfaces as the wrapped
`Failed to compress video: …` error of the outer catch. -/
def ffmpegCompressVideo (env : EncodeEnv) (preferredFormat : VideoFormat) :
    Except String VFile × List VideoFormat :=
  match encodeOutcome env preferredFormat with
  | .ok f => (.ok f, [preferredFormat])
  | .error _ =>
      match encodeOutcome env (altFormat preferredFormat) with
      | .ok f => (.ok f, [preferredFormat, altFormat preferredFormat])
      | .error _ =>
          (match env.normalizedOutcome with
            | .ok nf => .ok nf
            | .error m => .error ("Failed to compress video: " ++ m),
           [preferredFormat, altFormat preferredFormat])

/-! ## Link shortener (`src/unnamed/part_008`, current `TinyUrlService`) -/

/-- Whether `pat` occurs as a contiguous run inside `l`. -/
def charsContain (pat : List Char) : List Char → Bool
  | [] => pat.isEmpty
  | c :: rest => pat.isPrefixOf (c :: rest) || charsContain pat rest

/-- Substring test mirroring JS `String.prototype.includes`. -/
def strContains (s pat : String) : Bool :=
  charsContain pat.data s.data

/-- Outcome of one browser `fetch` call: the promise may reject (network
error), or resolve to a response with an HTTP ok flag, a status text and a
parsed payload. -/
inductive FetchOutcome (α : Type) where
  | netError (msg : String)
  | resp (ok : Bool) (statusText : String) (payload : α)
deriving Repr, DecidableEq

/-- `TinyUrlResponse` (part_008 lines 2–6). -/
structure TinyUrlResponse where
  shortUrl : String
  longUrl : String
  urlAlias : Option String
deriving Repr, DecidableEq

/-- Outcomes of the external calls of one `shortenUrl` run.  The proxy payload
is the parsed JSON's optional `shortUrl` field (a JSON parse failure yields an
object without the field).  The v2 payload is the optional `tiny_url` field
together with the error text the code would extract on a non-ok response. -/
structure ShortenEnv where
  proxy : FetchOutcome (Option String)
  apiKey : Option String
  v2 : FetchOutcome (Option String × String)
  simpleApi : FetchOutcome String
deriving Repr, DecidableEq

/-- The body of the outer `try` of `TinyUrlService.shortenUrl` (part_008 lines
21–94): proxy first (any proxy failure falls through), then the v2 API when an
API key is configured, else the simple `api-create.php` endpoint. -/
def shortenUrlAttempt (env : ShortenEnv) (longUrl : String)
    (urlAlias : Option String) : Except String TinyUrlResponse :=
  match env.proxy with
  | .resp true _ (some s) =>
      .ok { shortUrl := s.trim, longUrl := longUrl, urlAlias := urlAlias }
  | _ =>
      match env.apiKey with
      | some _ =>
          match env.v2 with
          | .netError m => .error m
          | .resp ok statusText (tiny, apiErr) =>
              if ok then
                match tiny with
                | some s =>
                    .ok { shortUrl := s.trim, longUrl := longUrl,
                          urlAlias := urlAlias }
                | none => .error "TinyURL API returned no shortened URL"
              else
                .error ("TinyURL API error: " ++
                  (if apiErr = "" then statusText else apiErr))
      | none =>
          match env.simpleApi with
          | .netError m => .error m
          | .resp ok statusText text =>
              if !ok then .error ("TinyURL API error: " ++ statusText)
              else if text = "" ∨ strContains text "Error" ∨
                  strContains text "error" then
                .error ("TinyURL API returned error: " ++ text)
              else
                .ok { shortUrl := text.trim, longUrl := longUrl,
                      urlAlias := urlAlias }

/-- `TinyUrlService.shortenUrl` (part_008 lines 20–99): the outer catch wraps
any thrown error and rethrows `Failed to shorten URL: ${message}` — it does
not swallow the failure. -/
def shortenUrl (env : ShortenEnv) (longUrl : String)
    (urlAlias : Option String) : Except String TinyUrlResponse :=
  match shortenUrlAttempt env longUrl urlAlias with
  | .ok r => .ok r
  | .error m => .error ("Failed to shorten URL: " ++ m)

/-! ## Resumable upload chunk loop (`googleDrive.ts` lines 204–243) -/

/-- One scripted server response to a chunk `PUT` in the resumable upload
loop. For HTTP 308, `range` is the end byte `e` of a `Range: bytes=0-e`
header when one is present (`parseInt(rangeHeader.split('-')[1])`). -/
inductive ChunkResponse where
  | status308 (range : Option ℕ)
  | done (fileId : String)
  | failed (statusText : String)
deriving Repr, DecidableEq

/-- `chunkEnd = Math.min(uploadedBytes + config.chunkSize, totalBytes)`. -/
def chunkEndOf (uploadedBytes chunkSize totalBytes : ℕ) : ℕ :=
  min (uploadedBytes + chunkSize) totalBytes

/-- The `while (uploadedBytes < totalBytes)` loop of `uploadFileResumable`:
each iteration sends `file.slice(uploadedBytes, chunkEnd)` and consumes one
scripted response; on 308 with a `Range` header the offset becomes `e + 1`,
on 308 without one it becomes `chunkEnd`; a 2xx response completes the
upload; any other status throws; falling out of the loop throws
`Upload incomplete`.  Running out of scripted responses models a fetch that
never resolves. -/
def uploadLoop (chunkSize totalBytes : ℕ) :
    ℕ → List ChunkResponse → Except String String
  | _, [] => .error "no response"
  | uploadedBytes, r :: rest =>
      if uploadedBytes < totalBytes then
        match r with
        | .status308 (some e) => uploadLoop chunkSize totalBytes (e + 1) rest
        | .status308 none =>
            uploadLoop chunkSize totalBytes
              (chunkEndOf uploadedBytes chunkSize totalBytes) rest
        | .done fileId => .ok fileId
        | .failed statusText => .error ("Chunk upload failed: " ++ statusText)
      else .error "Upload incomplete"

/-- The start offsets of the chunks actually `PUT` by `uploadLoop`, in order
(one chunk per consumed response). -/
def uploadChunkStarts (chunkSize totalBytes : ℕ) :
    ℕ → List ChunkResponse → List ℕ
  | _, [] => []
  | uploadedBytes, r :: rest =>
      if uploadedBytes < totalBytes then
        uploadedBytes ::
          match r with
          | .status308 (some e) => uploadChunkStarts chunkSize totalBytes (e + 1) rest
          | .status308 none =>
              uploadChunkStarts chunkSize totalBytes
                (chunkEndOf uploadedBytes chunkSize totalBytes) rest
          | _ => []
      else []

/-! ## Orchestrator (`videoProcessing.ts`, second revision, lines 252–567) -/

/-- `ProcessingOptions` (videoProcessing.ts lines 252–258). `quality` does not
influence the orchestrator's control flow. -/
structure ProcessingOptions where
  quality : ℚ
  enableGoogleDrive : Bool
  enableTinyUrl : Bool
  folderId : Option String := none
  preferredFormat : Option VideoFormat := none
deriving Repr, DecidableEq

/-- State of the `VideoProcessingService` singleton together with the task
store it writes through.  `hasDirHandle` is `this.userDirectoryHandle !== null`
and `abortSignalled` records whether `abort()` has been invoked on the current
`AbortController`. -/
structure ServiceState where
  isProcessing : Bool
  hasDirHandle : Bool
  abortSignalled : Bool
  queue : List ProcessingTask
deriving Repr, DecidableEq

/-- One store helper invocation emitted by the orchestrator. -/
inductive StoreOp where
  | add (taskId : String) (file : VFile)
  | update (taskId : String) (progress : ℚ) (status : Option Status)
  | complete (taskId : String) (result : TaskResult)
  | fail (taskId : String) (msg : Option String)
deriving Repr, DecidableEq

/-- Dispatch of a store helper invocation to the store functions. -/
def applyOp (queue : List ProcessingTask) : StoreOp → List ProcessingTask
  | .add taskId file => addToQueue taskId file queue
  | .update taskId progress status =>
      updateTaskProgress taskId progress status queue
  | .complete taskId result => completeTask taskId result queue
  | .fail taskId msg => failTask taskId msg queue

/-- The queue after a sequence of store helper invocations. -/
def applyOps (queue : List ProcessingTask) (ops : List StoreOp) :
    List ProcessingTask :=
  ops.foldl applyOp queue

/-- Outcomes of the external calls made during one `processVideo` run. -/
structure RunEnv where
  /-- raw `event.progress` values the encoder emits during compression -/
  compressionEvents : List JSNum
  /-- result of `videoProcessor.compressVideo`: the compressed `File`, or the
  thrown error's message (the service's `compressVideo` wrapper is applied by
  `processVideo` below via `wrapCompressionError`) -/
  compressionOutcome : Except String VFile
  /-- `isFileSystemAccessSupported()` -/
  fsSupported : Bool
  /-- `pickDirectory()` resolves (only consulted when no handle is cached) -/
  pickDirOk : Bool
  /-- `saveFileToDirectory(...)` resolves -/
  saveOk : Bool
  /-- `readBackFile(saved.fileHandle)` resolves -/
  readBackOk : Bool
  /-- `googleDriveService.uploadFile` result: the `webViewLink` of the created
  file (the only `DriveFile` field the orchestrator reads) -/
  uploadOutcome : Except String String
  /-- `tinyUrlService.shortenUrl(...)` result: the `shortUrl` field -/
  shortenOutcome : Except String String
  /-- `Date.now() - startTimeMs` at completion -/
  elapsedMs : ℕ
  /-- `URL.createObjectURL(compressedFile)` -/
  objectUrl : String
deriving Repr, DecidableEq

/-- Error-message mapping of the service-level `compressVideo` wrapper
(videoProcessing.ts lines 405–435), keyed on `error.message.includes(...)`. -/
def wrapCompressionError (msg : String) : String :=
  if strContains msg "Failed to initialize video processor" then
    "Video processor initialization failed. Please check your internet connection and try again."
  else if strContains msg "FFmpeg load timeout" then
    "Video processor loading timed out. Please check your internet connection and try again."
  else if strContains msg "Failed to compress video" then
    "Video compression failed. The file might be corrupted or in an unsupported format."
  else if strContains msg "memory access out of bounds" then
    "Video file is too large or complex for processing. Please try with a smaller file or lower resolution."
  else if strContains msg "All CDN sources failed" then
    "Unable to load video processor. Please check your internet connection and try again."
  else
    "Video compression failed: " ++ msg

/-- The progress mapping of the compression stage (videoProcessing.ts line
308): `const mappedProgress = 5 + (progress * 0.65)`. -/
def mapCompressionProgress (progress : ℚ) : ℚ :=
  5 + progress * 0.65

/-- The guard's rejection message (videoProcessing.ts line 279), named
`AlreadyProcessing` in the error taxonomy. -/
def alreadyProcessingMsg : String :=
  "Another video is currently being processed"

/-- Step 1 (lines 288–310): the `(0, 'processing')` and `(5, 'processing')`
reports followed by one mapped report per encoder progress event. -/
def compressStageOps (taskId : String) (env : RunEnv) : List StoreOp :=
  [.update taskId 0 (some .processing), .update taskId 5 (some .processing)] ++
  env.compressionEvents.map (fun e =>
    .update taskId (mapCompressionProgress (forwardedProgress e))
      (some .processing))

/-- Whether a directory handle is available inside the step-1.5 `try`:
either one is cached on the service or `pickDirectory()` succeeds. -/
def dirAvailable (s : ServiceState) (env : RunEnv) : Bool :=
  s.hasDirHandle || env.pickDirOk

/-- Whether `saveFileToDirectory` produced a local copy (`saved !== null`). -/
def savedLocally (s : ServiceState) (env : RunEnv) : Bool :=
  env.fsSupported && dirAvailable s env && env.saveOk

/-- Step 1.5 (lines 312–325): the `(68, 'processing')` report, emitted once a
directory handle is available (a save failure afterwards is swallowed). -/
def saveStageOps (taskId : String) (s : ServiceState) (env : RunEnv) :
    List StoreOp :=
  if env.fsSupported && dirAvailable s env then
    [.update taskId 68 (some .processing)]
  else []

/-- Whether the step-2 `try` reaches a `driveFile`: `readBackFile` (when a
local copy exists) and the upload itself must both resolve. -/
def uploadWorked (s : ServiceState) (env : RunEnv) : Bool :=
  (!savedLocally s env || env.readBackOk) && env.uploadOutcome.isOk

/-- The `driveFile.webViewLink` available after step 2, when any. -/
def driveLink (s : ServiceState) (options : ProcessingOptions)
    (env : RunEnv) : Option String :=
  if options.enableGoogleDrive && uploadWorked s env then
    env.uploadOutcome.toOption
  else none

/-- Step 2 (lines 327–339): the `(70, 'processing')` report, then
`(90, 'processing')` when the upload succeeds (a failure is swallowed). -/
def uploadStageOps (taskId : String) (s : ServiceState)
    (options : ProcessingOptions) (env : RunEnv) : List StoreOp :=
  if options.enableGoogleDrive then
    [.update taskId 70 (some .processing)] ++
    (if uploadWorked s env then [.update taskId 90 (some .processing)]
     else [])
  else []

/-- Step 3 (lines 341–357): the shortening reports together with the
resulting `shareUrl` (a shorten failure falls back to the drive link). -/
def shortenStage (taskId : String) (s : ServiceState)
    (options : ProcessingOptions) (env : RunEnv) :
    List StoreOp × Option String :=
  match driveLink s options env with
  | some link =>
      if options.enableTinyUrl then
        match env.shortenOutcome with
        | .ok shortUrl =>
            ([.update taskId 90 (some .processing),
              .update taskId 100 (some .processing)], some shortUrl)
        | .error _ =>
            ([.update taskId 90 (some .processing)], some link)
      else ([.update taskId 100 (some .processing)], some link)
  | none => ([], none)

/-- Result of one `processVideo` call: the settled promise, the emitted store
operations in order, whether the single-flight guard rejected the call, and
the service state afterwards. -/
structure RunOutcome where
  result : Except String ProcessingTask
  ops : List StoreOp
  rejectedByGuard : Bool
  finalState : ServiceState
deriving Repr, DecidableEq

/-- `VideoProcessingService.processVideo` (videoProcessing.ts lines 265–403),
as a function of the service state and the run environment.

Faithfulness notes tied to the source:
* the guard `if (this.isProcessing) throw …` fires before any mutation;
* the pre-auth `googleDriveService.authenticate()` and the step-4
  `deleteSavedFile` are wrapped in catch-and-warn and touch no modelled state;
* `pickDirectory` is called only when no directory handle is cached, and a
  handle obtained once persists on the service;
* the `68` progress report is emitted only after a directory handle is
  available, and a `saveFileToDirectory` failure is swallowed;
* an upload failure (including a `readBackFile` failure inside the same
  `try`) is swallowed and the run continues without a drive file;
* a shorten failure is swallowed and the drive `webViewLink` is used instead;
* only a compression failure reaches the catch block, which reports
  `(0, 'error')`, calls `failTask` and rethrows;
* the `finally` block clears `isProcessing` and drops the controller. -/
def processVideo (s : ServiceState) (taskId : String) (file : VFile)
    (options : ProcessingOptions) (env : RunEnv) : RunOutcome :=
  if s.isProcessing then
    { result := .error alreadyProcessingMsg, ops := [],
      rejectedByGuard := true, finalState := s }
  else
    match env.compressionOutcome with
    | .error rawMsg =>
        let msg := wrapCompressionError rawMsg
        let ops := .add taskId file :: compressStageOps taskId env ++
          [.update taskId 0 (some .error), .fail taskId (some msg)]
        { result := .error msg, ops := ops, rejectedByGuard := false,
          finalState :=
            { isProcessing := false, hasDirHandle := s.hasDirHandle,
              abortSignalled := false, queue := applyOps s.queue ops } }
    | .ok compressedFile =>
        let hasDir := s.hasDirHandle || (env.fsSupported && env.pickDirOk)
        let shareUrl := (shortenStage taskId s options env).2
        let ops := .add taskId file :: compressStageOps taskId env ++
          saveStageOps taskId s env ++ uploadStageOps taskId s options env ++
          (shortenStage taskId s options env).1 ++
          [.complete taskId
            { compressedSize := some compressedFile.size,
              processingTime := some env.elapsedMs,
              downloadUrl := some env.objectUrl,
              shareUrl := some shareUrl }]
        { result := .ok
            { id := taskId, file := file, status := .completed,
              progress := 100, originalSize := file.size,
              compressedSize := some compressedFile.size,
              processingTime := some env.elapsedMs,
              downloadUrl := some env.objectUrl, shareUrl := shareUrl }
          ops := ops
          rejectedByGuard := false
          finalState :=
            { isProcessing := false, hasDirHandle := hasDir,
              abortSignalled := false, queue := applyOps s.queue ops } }

/-- `VideoProcessingService.cancelProcessing` (videoProcessing.ts lines
558–567): a no-op unless a task is in flight; otherwise it invokes
`abort()` on the controller and clears the in-flight flag.  The
`videoProcessor.cancelCurrentOperation()` call resolves to a thrown
`TypeError` swallowed by its `catch {}` — no `VideoProcessor` revision
defines such a method — and no task-store helper is invoked. -/
def cancelProcessing (s : ServiceState) : ServiceState :=
  if !s.isProcessing then s
  else { s with abortSignalled := true, isProcessing := false }

/-- The progress values passed to `updateTaskProgress`, in order. -/
def progressReports (ops : List StoreOp) : List ℚ :=
  ops.filterMap fun op =>
    match op with
    | .update _ progress _ => some progress
    | _ => none

/-- The task with the given id, as the UI reads it from the store. -/
def taskStatus (taskId : String) (queue : List ProcessingTask) :
    Option Status :=
  (queue.find? fun t => t.id = taskId).map (·.status)

/-- The successive store snapshots of a run: the initial queue followed by
the queue after each emitted operation. -/
def storeStates (queue : List ProcessingTask) (ops : List StoreOp) :
    List (List ProcessingTask) :=
  ops.scanl applyOp queue

/-- The sequence of observable statuses of one task across a run's store
snapshots (snapshots where the task does not exist yet are skipped). -/
def statusHistory (taskId : String) (queue : List ProcessingTask)
    (ops : List StoreOp) : List Status :=
  (storeStates queue ops).filterMap (taskStatus taskId)

/-- The transitions allowed by the task state machine
`pending -> processing -> {completed | error}` (staying put is allowed). -/
def statusStepOk : Status → Status → Bool
  | .pending, .pending => true
  | .pending, .processing => true
  | .processing, .processing => true
  | .processing, .completed => true
  | .processing, .error => true
  | .completed, .completed => true
  | .error, .error => true
  | _, _ => false

/-- The status a store operation writes for the task with the given id, when
the operation is an unconditional status write for that task (`add` is
excluded: it appends a fresh task rather than writing through an existing
one). -/
def writeOpFor (taskId : String) : StoreOp → Option Status
  | .update taskId2 _ (some st) => if taskId2 = taskId then some st else none
  | .complete taskId2 _ => if taskId2 = taskId then some .completed else none
  | .fail taskId2 _ => if taskId2 = taskId then some .error else none
  | _ => none

/-! ## File validation (`videoProcessing.ts` lines 490–552, current revision) -/

/-- `const maxSize = 50 * 1024 * 1024` (videoProcessing.ts line 497). -/
def maxFileSizeBytes : ℕ := 50 * 1024 * 1024

/-- `const sizes = ['Bytes', 'KB', 'MB', 'GB']`. -/
def sizeUnits : List String := ["Bytes", "KB", "MB", "GB"]

/-- `Math.floor(Math.log(bytes) / Math.log(1024))`, the integer base-1024
logarithm, written out over the range the 4-entry `sizes` array can index
(every browser file size is far below 1024⁵). -/
def sizeExponent (bytes : ℕ) : ℕ :=
  if bytes < 1024 then 0
  else if bytes < 1024 ^ 2 then 1
  else if bytes < 1024 ^ 3 then 2
  else if bytes < 1024 ^ 4 then 3
  else 4

/-- `(num / den).toFixed(2)` scaled by 100: round-half-up on the exact
rational, which agrees with JS on the double-exact quotients in scope. -/
def toFixed2Scaled (num den : ℕ) : ℕ :=
  (200 * num + den) / (2 * den)

/-- `parseFloat(x.toFixed(2))` then string conversion of the value whose
hundredths-scaled integer is `n`: fixed-two-decimal rendering with trailing
zeros (and a trailing dot) removed. -/
def trimmedFixed2 (n : ℕ) : String :=
  if n % 100 = 0 then toString (n / 100)
  else if n % 10 = 0 then toString (n / 100) ++ "." ++ toString ((n / 10) % 10)
  else
    toString (n / 100) ++ "." ++
      (if n % 100 < 10 then "0" ++ toString (n % 100) else toString (n % 100))

/-- `formatFileSize` (videoProcessing.ts lines 546–552); `sizes[i]` is
`undefined` past the end of the array, which JS renders as "undefined". -/
def formatFileSize (bytes : ℕ) : String :=
  if bytes = 0 then "0 Bytes"
  else
    let i := sizeExponent bytes
    trimmedFixed2 (toFixed2Scaled bytes (1024 ^ i)) ++ " " ++
      sizeUnits.getD i "undefined"

/-- `const supportedFormats = [...]` (videoProcessing.ts line 510). -/
def supportedFormatsList : List String :=
  ["webm", "mp4", "avi", "mov", "mkv", "wmv", "flv", "3gp"]

/-- `const preferredFormats = ['webm', 'mp4']` (line 509). -/
def preferredFormatsList : List String := ["webm", "mp4"]

/-- `const supportedMimeTypes = [...]` (lines 522–531). -/
def supportedMimeList : List String :=
  ["video/webm", "video/mp4", "video/avi", "video/quicktime",
   "video/x-matroska", "video/x-ms-wmv", "video/x-flv", "video/3gpp"]

/-- `const preferredMimeTypes = ['video/webm', 'video/mp4']` (line 521). -/
def preferredMimeList : List String := ["video/webm", "video/mp4"]

/-- ASCII lower-casing of one character (`toLowerCase` on the characters in
scope). -/
def lowerChar (c : Char) : Char :=
  if 65 ≤ c.toNat ∧ c.toNat ≤ 90 then Char.ofNat (c.toNat + 32) else c

/-- The characters after the last `'.'` (the whole list when there is no
dot): exactly `split('.').pop()` for a single-character separator. -/
def lastSegmentAfterDot (l : List Char) : List Char :=
  l.foldl (fun acc c => if c = '.' then [] else acc ++ [c]) []

/-- `file.name.split('.').pop()?.toLowerCase()`; the empty string plays the
role of a falsy extension. -/
def fileExtension (name : String) : String :=
  String.mk ((lastSegmentAfterDot name.data).map lowerChar)

/-- `VideoProcessingService.validateFile` (videoProcessing.ts lines 490–544):
returns `isValid` together with the collected error strings (size, format,
MIME — in the order the code pushes them).  The console warnings for large
or non-preferred files add no errors. -/
def validateFile (file : VFile) : Bool × List String :=
  let sizeErrors : List String :=
    if file.size > maxFileSizeBytes then
      ["File size too large. Maximum size: " ++
        formatFileSize maxFileSizeBytes ++
        ". Large files may cause memory issues during processing."]
    else []
  let ext := fileExtension file.name
  let formatErrors : List String :=
    if ext = "" ∨ ext ∉ supportedFormatsList then
      ["Unsupported file format. Preferred formats: " ++
        String.intercalate ", " preferredFormatsList ++
        ". Supported formats: " ++
        String.intercalate ", " supportedFormatsList]
    else []
  let mimeErrors : List String :=
    if file.type ∉ supportedMimeList then
      ["Unsupported MIME type. Preferred types: " ++
        String.intercalate ", " preferredMimeList]
    else []
  let errors := sizeErrors ++ formatErrors ++ mimeErrors
  (errors.isEmpty, errors)

/-!
# Theorems
-/

/-! ## Clamping bounds -/

theorem clampProgress_nonneg (e : JSNum) : 0 ≤ clampProgress e := by
  cases e with
  | fin q => simp [clampProgress]
  | _ => simp [clampProgress]

theorem clampProgress_le_100 (e : JSNum) : clampProgress e ≤ 100 := by
  cases e with
  | fin q =>
      simp only [clampProgress]
      rcases le_total (100 : ℚ) q with h | h
      · simp [min_eq_left h]
      · exact max_le (by norm_num) (min_le_left _ _)
  | _ => simp [clampProgress]

theorem map_matching_filter_ne (taskId : String)
    (f : ProcessingTask → ProcessingTask) (hid : ∀ t, (f t).id = t.id)
    (queue : List ProcessingTask) :
    (queue.map fun t => if t.id = taskId then f t else t).filter
        (fun t => t.id ≠ taskId)
      = queue.filter (fun t => t.id ≠ taskId) := by
  induction queue with
  | nil => rfl
  | cons t rest ih =>
      by_cases h : t.id = taskId
      · simpa [List.filter_cons, h, hid t] using ih
      · simpa [List.filter_cons, h] using ih

/-- **C10** — Every task-store operation keyed by a task id leaves the
sublist of tasks whose id differs from the given id exactly as it was:
those tasks are unchanged and their relative order is preserved. -/
theorem store_ops_frame (taskId : String) (progress : ℚ)
    (status : Option Status) (result : TaskResult)
    (errorMessage : Option String) (queue : List ProcessingTask) :
    (updateTaskProgress taskId progress status queue).filter
        (fun t => t.id ≠ taskId) = queue.filter (fun t => t.id ≠ taskId) ∧
    (completeTask taskId result queue).filter
        (fun t => t.id ≠ taskId) = queue.filter (fun t => t.id ≠ taskId) ∧
    (failTask taskId errorMessage queue).filter
        (fun t => t.id ≠ taskId) = queue.filter (fun t => t.id ≠ taskId) ∧
    (removeTask taskId queue).filter
        (fun t => t.id ≠ taskId) = queue.filter (fun t => t.id ≠ taskId) := by
  refine ⟨?_, ?_, ?_, ?_⟩
  · exact map_matching_filter_ne taskId
      (fun task =>
        { task with
          progress := progress
          status := status.getD task.status })
      (fun t => rfl) queue
  · exact map_matching_filter_ne taskId
      (fun task =>
        { applyResult task result with status := .completed, progress := 100 })
      (fun t => rfl) queue
  · exact map_matching_filter_ne taskId
      (fun task =>
        { task with
          status := .error
          errMsg := overrideField errorMessage task.errMsg })
      (fun t => rfl) queue
  · simp [removeTask, List.filter_filter]

/-- **C9** — For every value the underlying encoder emits as progress
(including NaN and the infinities), the percentage handed to the compression
progress callback lies within [0,100]: non-finite inputs are mapped to the
clamped value 0 rather than passed through. -/
theorem forwardedProgress_mem_Icc (e : JSNum) :
    0 ≤ forwardedProgress e ∧ forwardedProgress e ≤ 100 ∧
      (forwardedProgress (.nan) = 0 ∧ forwardedProgress (.posInf) = 0 ∧
        forwardedProgress (.negInf) = 0) :=
  ⟨clampProgress_nonneg _, clampProgress_le_100 _, rfl, rfl, rfl⟩

/-! ## Single-flight guard -/

/-- **C3** — Whenever a task is in flight (`isProcessing` is true), a second
`processVideo` call fails immediately with the `AlreadyProcessing` error and
changes nothing: no store operation is emitted (so no task is enqueued and the
first task's record is untouched) and the service state is returned as it was. -/
theorem second_call_rejected (s : ServiceState) (taskId : String)
    (file : VFile) (options : ProcessingOptions) (env : RunEnv)
    (h : s.isProcessing = true) :
    processVideo s taskId file options env =
      { result := .error alreadyProcessingMsg, ops := [],
        rejectedByGuard := true, finalState := s } := by
  simp [processVideo, h]

theorem second_call_rejected_witness :
    (ServiceState.isProcessing
        ⟨true, false, false,
          [{ id := "t1", file := ⟨"a.mp4", 5, "video/mp4"⟩,
             status := .processing, progress := 40, originalSize := 5 }]⟩
      = true) ∧
    processVideo
        ⟨true, false, false,
          [{ id := "t1", file := ⟨"a.mp4", 5, "video/mp4"⟩,
             status := .processing, progress := 40, originalSize := 5 }]⟩
        "t2" ⟨"b.mp4", 6, "video/mp4"⟩ ⟨0.8, true, true, none, none⟩
        ⟨[], .ok ⟨"c.mp4", 1, "video/mp4"⟩, false, false, false, false,
          .ok "L", .ok "S", 0, "u"⟩ =
      { result := .error alreadyProcessingMsg, ops := [],
        rejectedByGuard := true,
        finalState :=
          ⟨true, false, false,
            [{ id := "t1", file := ⟨"a.mp4", 5, "video/mp4"⟩,
               status := .processing, progress := 40, originalSize := 5 }]⟩ } :=
  ⟨rfl, second_call_rejected _ _ _ _ _ rfl⟩

/-! ## Compression format fallback -/

/-- **C4** — If the encoder for the preferred format fails,
`compressVideo` attempts the alternate format (webm↔mp4) exactly once, after
the preferred attempt and before any failure of the task; when the alternate
attempt succeeds, its compressed file is the returned output. -/
theorem compress_fallback (env : EncodeEnv) (pref : VideoFormat)
    (e : String) (hpref : encodeOutcome env pref = .error e) :
    (ffmpegCompressVideo env pref).2 = [pref, altFormat pref] ∧
    ∀ f, encodeOutcome env (altFormat pref) = .ok f →
      (ffmpegCompressVideo env pref).1 = .ok f := by
  constructor
  · unfold ffmpegCompressVideo
    rw [hpref]
    cases halt : encodeOutcome env (altFormat pref) <;> simp
  · intro f halt
    unfold ffmpegCompressVideo
    rw [hpref, halt]

theorem compress_fallback_witness :
    (encodeOutcome
        ⟨.error "x", .ok ⟨"out_compressed.mp4", 3, "video/mp4"⟩,
          .ok ⟨"input.fixed.mp4", 1, "video/mp4"⟩⟩ .webm = .error "x") ∧
    (ffmpegCompressVideo
        ⟨.error "x", .ok ⟨"out_compressed.mp4", 3, "video/mp4"⟩,
          .ok ⟨"input.fixed.mp4", 1, "video/mp4"⟩⟩ .webm).2 = [.webm, .mp4] ∧
    (ffmpegCompressVideo
        ⟨.error "x", .ok ⟨"out_compressed.mp4", 3, "video/mp4"⟩,
          .ok ⟨"input.fixed.mp4", 1, "video/mp4"⟩⟩ .webm).1 =
      .ok ⟨"out_compressed.mp4", 3, "video/mp4"⟩ :=
  ⟨rfl,
    (compress_fallback
      ⟨.error "x", .ok ⟨"out_compressed.mp4", 3, "video/mp4"⟩,
        .ok ⟨"input.fixed.mp4", 1, "video/mp4"⟩⟩ .webm "x" rfl).1,
    (compress_fallback
      ⟨.error "x", .ok ⟨"out_compressed.mp4", 3, "video/mp4"⟩,
        .ok ⟨"input.fixed.mp4", 1, "video/mp4"⟩⟩ .webm "x" rfl).2 _ rfl⟩

/-! ## Resumable upload continuation -/

/-- **C5** — In the resumable upload loop, a chunk response with HTTP status
308 carrying a `Range` header ending at `e` makes the next chunk start at
`e + 1`; a 308 response without a `Range` header advances the offset to the
end of the chunk just sent (`min (uploadedBytes + chunkSize) totalBytes`). -/
theorem resumable_next_offset (chunkSize totalBytes uploadedBytes e : ℕ)
    (rest : List ChunkResponse) (h : uploadedBytes < totalBytes) :
    (uploadLoop chunkSize totalBytes uploadedBytes
        (.status308 (some e) :: rest) =
      uploadLoop chunkSize totalBytes (e + 1) rest ∧
     uploadChunkStarts chunkSize totalBytes uploadedBytes
        (.status308 (some e) :: rest) =
      uploadedBytes :: uploadChunkStarts chunkSize totalBytes (e + 1) rest) ∧
    (uploadLoop chunkSize totalBytes uploadedBytes (.status308 none :: rest) =
      uploadLoop chunkSize totalBytes
        (chunkEndOf uploadedBytes chunkSize totalBytes) rest ∧
     uploadChunkStarts chunkSize totalBytes uploadedBytes
        (.status308 none :: rest) =
      uploadedBytes :: uploadChunkStarts chunkSize totalBytes
        (chunkEndOf uploadedBytes chunkSize totalBytes) rest) := by
  refine ⟨⟨?_, ?_⟩, ?_, ?_⟩ <;> simp [uploadLoop, uploadChunkStarts, h]

theorem resumable_next_offset_witness :
    (0 < 1048576) ∧
    ((uploadLoop 262144 1048576 0 [.status308 (some 262143)] =
        uploadLoop 262144 1048576 262144 [] ∧
      uploadChunkStarts 262144 1048576 0 [.status308 (some 262143)] =
        0 :: uploadChunkStarts 262144 1048576 262144 []) ∧
     (uploadLoop 262144 1048576 0 [.status308 none] =
        uploadLoop 262144 1048576 (chunkEndOf 0 262144 1048576) [] ∧
      uploadChunkStarts 262144 1048576 0 [.status308 none] =
        0 :: uploadChunkStarts 262144 1048576 (chunkEndOf 0 262144 1048576) [])) :=
  ⟨by decide, resumable_next_offset 262144 1048576 0 262143 [] (by decide)⟩

/-! ## Cancellation (code bug evidence) -/

/-- **C7** — What `cancelProcessing` actually does while a task is in flight:
it invokes `abort()` on the cancellation token and clears the in-flight flag,
so an immediately following `processVideo` call is not rejected by the
single-flight guard; but it performs no task-store operation, so the task's
recorded status is not set to any not-processing state by cancellation.  The
upload cannot observe the abort either: `GoogleDriveService.uploadFile` takes
only `(file, config)` and never attaches the `AbortSignal` that `processVideo`
passes as a third argument, and `VideoProcessor` has no
`cancelCurrentOperation` method. -/
theorem cancel_clears_flag_but_leaves_store (s : ServiceState)
    (taskId : String) (file : VFile) (options : ProcessingOptions)
    (env : RunEnv) (h : s.isProcessing = true) :
    (cancelProcessing s).isProcessing = false ∧
    (cancelProcessing s).abortSignalled = true ∧
    (cancelProcessing s).queue = s.queue ∧
    (processVideo (cancelProcessing s) taskId file options env).rejectedByGuard
      = false := by
  refine ⟨by simp [cancelProcessing, h], by simp [cancelProcessing, h],
    by simp [cancelProcessing, h], ?_⟩
  cases hco : env.compressionOutcome <;>
    simp [cancelProcessing, h, processVideo, hco]

theorem cancel_clears_flag_but_leaves_store_witness :
    (ServiceState.isProcessing
        ⟨true, false, false,
          [{ id := "t1", file := ⟨"a.mp4", 5, "video/mp4"⟩,
             status := .processing, progress := 75, originalSize := 5 }]⟩
      = true) ∧
    ((cancelProcessing
        ⟨true, false, false,
          [{ id := "t1", file := ⟨"a.mp4", 5, "video/mp4"⟩,
             status := .processing, progress := 75, originalSize := 5 }]⟩).isProcessing
        = false ∧
     (cancelProcessing
        ⟨true, false, false,
          [{ id := "t1", file := ⟨"a.mp4", 5, "video/mp4"⟩,
             status := .processing, progress := 75, originalSize := 5 }]⟩).abortSignalled
        = true ∧
     (cancelProcessing
        ⟨true, false, false,
          [{ id := "t1", file := ⟨"a.mp4", 5, "video/mp4"⟩,
             status := .processing, progress := 75, originalSize := 5 }]⟩).queue
        = [{ id := "t1", file := ⟨"a.mp4", 5, "video/mp4"⟩,
             status := .processing, progress := 75, originalSize := 5 }] ∧
     (processVideo
        (cancelProcessing
          ⟨true, false, false,
            [{ id := "t1", file := ⟨"a.mp4", 5, "video/mp4"⟩,
               status := .processing, progress := 75, originalSize := 5 }]⟩)
        "t2" ⟨"b.mp4", 6, "video/mp4"⟩ ⟨0.8, true, true, none, none⟩
        ⟨[], .ok ⟨"c.mp4", 1, "video/mp4"⟩, false, false, false, false,
          .ok "L", .ok "S", 0, "u"⟩).rejectedByGuard = false) :=
  ⟨rfl, cancel_clears_flag_but_leaves_store _ _ _ _ _ rfl⟩

/-! ## File validation scenario -/

/-- **C8** — `validateFile` accepts a 10MB file named "video.mp4" with a
supported MIME type (`isValid` true, empty error list) and rejects an 80MB
file with the same extension and MIME type with exactly the size-limit error,
whose message contains the rendered configured maximum "50 MB". -/
theorem validateFile_scenario :
    validateFile ⟨"video.mp4", 10 * 1024 * 1024, "video/mp4"⟩ = (true, []) ∧
    validateFile ⟨"video.mp4", 80 * 1024 * 1024, "video/mp4"⟩ =
      (false,
        ["File size too large. Maximum size: 50 MB. Large files may cause memory issues during processing."]) ∧
    formatFileSize maxFileSizeBytes = "50 MB" ∧
    strContains
      "File size too large. Maximum size: 50 MB. Large files may cause memory issues during processing."
      (formatFileSize maxFileSizeBytes) = true := by
  refine ⟨?_, ?_, ?_, ?_⟩ <;> decide

/-! ## Link shortening failure behaviour -/

/-- **C2, counterexample** — With the same-origin proxy unreachable and no
API key, both remaining attempts also failing, `shortenUrl` settles to a
thrown `Failed to shorten URL: …` error: it does not return the original
long URL, refuting the claim that it never throws. -/
theorem shortenUrl_throws_on_total_failure :
    shortenUrl
        ⟨.netError "Failed to fetch", none, .netError "Failed to fetch",
          .netError "Failed to fetch"⟩
        "https://drive.google.com/file/d/abc/view" none =
      .error "Failed to shorten URL: Failed to fetch" ∧
    shortenUrl
        ⟨.netError "Failed to fetch", none, .netError "Failed to fetch",
          .netError "Failed to fetch"⟩
        "https://drive.google.com/file/d/abc/view" none ≠
      .ok { shortUrl := "https://drive.google.com/file/d/abc/view",
            longUrl := "https://drive.google.com/file/d/abc/view",
            urlAlias := none } :=
  ⟨by decide, by decide⟩

theorem isPrefixOf_append_self (l t : List Char) :
    l.isPrefixOf (l ++ t) = true := by
  induction l with
  | nil => simp [List.isPrefixOf]
  | cons c r ih => simp [List.isPrefixOf, ih]

theorem strContains_append_left (pre suf : String) :
    strContains (pre ++ suf) pre = true := by
  obtain ⟨l1⟩ := pre
  obtain ⟨l2⟩ := suf
  show charsContain l1 (l1 ++ l2) = true
  cases l1 with
  | nil => cases l2 <;> simp [charsContain, List.isPrefixOf, List.isEmpty]
  | cons c r => simp [charsContain, isPrefixOf_append_self]

/-- **C2, amended** — When shortening fails for any reason, `shortenUrl`
itself rejects with a `Failed to shorten URL: …` error (it never silently
returns the long URL); the fallback to the original URL lives one layer up:
the orchestrator catches the failure and completes the task with the Drive
`webViewLink` — the very URL it asked to shorten — as the share URL, so the
copy-link flow is never blocked. -/
theorem shortenUrl_failure_propagation :
    (∀ env longUrl urlAlias m,
       shortenUrl env longUrl urlAlias = .error m →
       strContains m "Failed to shorten URL: " = true) ∧
    (∀ (s : ServiceState) (taskId : String) (file : VFile)
        (options : ProcessingOptions) (env : RunEnv)
        (link m : String) (cf : VFile),
       s.isProcessing = false → options.enableGoogleDrive = true →
       options.enableTinyUrl = true → env.fsSupported = false →
       env.uploadOutcome = .ok link → env.shortenOutcome = .error m →
       env.compressionOutcome = .ok cf →
       ((processVideo s taskId file options env).result.map
          (fun t => t.shareUrl)) = .ok (some link)) := by
  constructor
  · intro env longUrl urlAlias m hm
    unfold shortenUrl at hm
    cases h : shortenUrlAttempt env longUrl urlAlias with
    | ok r => rw [h] at hm; cases hm
    | error m0 =>
        rw [h] at hm
        injection hm with hm2
        subst hm2
        exact strContains_append_left "Failed to shorten URL: " m0
  · intro s taskId file options env link m cf h1 h2 h3 h4 h5 hm hcf
    simp [processVideo, h1, hcf, hm, h2, h3, h4, h5, shortenStage, driveLink,
      uploadWorked, savedLocally, dirAvailable, Except.isOk, Except.toBool,
      Except.toOption, Except.map]

theorem shortenUrl_failure_propagation_witness :
    (shortenUrl ⟨.netError "nf", none, .netError "nf", .netError "nf"⟩
        "https://long.example" none = .error "Failed to shorten URL: nf") ∧
    strContains "Failed to shorten URL: nf" "Failed to shorten URL: " = true ∧
    ((processVideo ⟨false, false, false, []⟩ "t1"
        ⟨"v.mp4", 9000, "video/mp4"⟩ ⟨0.8, true, true, none, none⟩
        ⟨[], .ok ⟨"v_compressed.mp4", 5000, "video/mp4"⟩, false, false, false,
          false, .ok "https://drive.google.com/file/d/abc/view",
          .error "boom", 1000, "blob:u"⟩).result.map (fun t => t.shareUrl)) =
      .ok (some "https://drive.google.com/file/d/abc/view") :=
  ⟨by decide,
   shortenUrl_failure_propagation.1
     ⟨.netError "nf", none, .netError "nf", .netError "nf"⟩
     "https://long.example" none "Failed to shorten URL: nf" (by decide),
   shortenUrl_failure_propagation.2 _ "t1" _ _ _
     "https://drive.google.com/file/d/abc/view" "boom"
     ⟨"v_compressed.mp4", 5000, "video/mp4"⟩ rfl rfl rfl rfl rfl rfl rfl⟩


theorem find_map_matching (tid : String) (f : ProcessingTask → ProcessingTask)
    (hid : ∀ t, (f t).id = t.id) (queue : List ProcessingTask) :
    ((queue.map fun t => if t.id = tid then f t else t).find?
        (fun t => t.id = tid))
      = (queue.find? (fun t => t.id = tid)).map f := by
  induction queue with
  | nil => rfl
  | cons t rest ih =>
      by_cases h : t.id = tid
      · simp [List.find?, h, hid t]
      · simp [List.find?, h, ih]

theorem taskStatus_fresh_none (tid : String) (q : List ProcessingTask)
    (hfresh : ∀ t ∈ q, t.id ≠ tid) :
    taskStatus tid q = none := by
  induction q with
  | nil => rfl
  | cons t rest ih =>
      have h1 : t.id ≠ tid := hfresh t (by simp)
      have h2 := ih (fun t2 ht2 => hfresh t2 (by simp [ht2]))
      simpa [taskStatus, List.find?, h1] using h2

theorem taskStatus_addToQueue_fresh (tid : String) (file : VFile)
    (q : List ProcessingTask) (hfresh : ∀ t ∈ q, t.id ≠ tid) :
    taskStatus tid (addToQueue tid file q) = some .pending := by
  induction q with
  | nil => simp [taskStatus, addToQueue, newTask, List.find?]
  | cons t rest ih =>
      have h1 : t.id ≠ tid := hfresh t (by simp)
      have h2 := ih (fun t2 ht2 => hfresh t2 (by simp [ht2]))
      simpa [taskStatus, addToQueue, List.find?, h1] using h2

theorem taskStatus_applyOp_write (tid : String) (q : List ProcessingTask)
    (op : StoreOp) (w : Status) (hw : writeOpFor tid op = some w)
    (hpres : (taskStatus tid q).isSome) :
    taskStatus tid (applyOp q op) = some w := by
  obtain ⟨t0, ht0⟩ : ∃ t0, q.find? (fun t => t.id = tid) = some t0 := by
    rcases h : q.find? (fun t => t.id = tid) with _ | t0
    · rw [taskStatus, h] at hpres; simp at hpres
    · exact ⟨t0, h⟩
  cases op with
  | add tid2 file => simp [writeOpFor] at hw
  | update tid2 p st =>
      cases st with
      | none => simp [writeOpFor] at hw
      | some st2 =>
          by_cases h : tid2 = tid
          · subst h
            have hw2 : st2 = w := by simpa [writeOpFor] using hw
            subst hw2
            rw [show applyOp q (.update tid2 p (some st2)) =
              updateTaskProgress tid2 p (some st2) q from rfl]
            rw [taskStatus, updateTaskProgress,
              find_map_matching tid2
                (fun task =>
                  { task with
                    progress := p
                    status := (some st2).getD task.status })
                (fun t => rfl) q,
              ht0]
            rfl
          · simp [writeOpFor, h] at hw
  | complete tid2 result =>
      by_cases h : tid2 = tid
      · subst h
        have hw2 : Status.completed = w := by simpa [writeOpFor] using hw
        subst hw2
        rw [show applyOp q (.complete tid2 result) =
          completeTask tid2 result q from rfl]
        rw [taskStatus, completeTask,
          find_map_matching tid2
            (fun task =>
              { applyResult task result with
                status := .completed, progress := 100 })
            (fun t => rfl) q,
          ht0]
        rfl
      · simp [writeOpFor, h] at hw
  | fail tid2 msg =>
      by_cases h : tid2 = tid
      · subst h
        have hw2 : Status.error = w := by simpa [writeOpFor] using hw
        subst hw2
        rw [show applyOp q (.fail tid2 msg) = failTask tid2 msg q from rfl]
        rw [taskStatus, failTask,
          find_map_matching tid2
            (fun task =>
              { task with
                status := .error
                errMsg := overrideField msg task.errMsg })
            (fun t => rfl) q,
          ht0]
        rfl
      · simp [writeOpFor, h] at hw

theorem statusHistory_write_ops (tid : String) :
    ∀ (ops : List StoreOp) (q : List ProcessingTask) (st : Status),
      taskStatus tid q = some st →
      (∀ op ∈ ops, (writeOpFor tid op).isSome) →
      statusHistory tid q ops = st :: ops.filterMap (writeOpFor tid) := by
  intro ops
  induction ops with
  | nil =>
      intro q st hst _
      simp [statusHistory, storeStates, hst]
  | cons op rest ih =>
      intro q st hst hall
      obtain ⟨w, hw⟩ := Option.isSome_iff_exists.mp (hall op (by simp))
      have h2 := taskStatus_applyOp_write tid q op w hw (by rw [hst]; rfl)
      have h3 := ih (applyOp q op) w h2 (fun o ho => hall o (by simp [ho]))
      simp only [statusHistory, storeStates, List.scanl_cons,
        List.filterMap_cons, List.filterMap_append, List.filterMap_nil,
        hst, hw] at h3 ⊢
      simp [h3]

theorem taskStatus_applyOps_write (tid : String) :
    ∀ (ops : List StoreOp) (q : List ProcessingTask),
      (taskStatus tid q).isSome →
      (∀ op ∈ ops, (writeOpFor tid op).isSome) →
      (taskStatus tid (applyOps q ops)).isSome := by
  intro ops
  induction ops with
  | nil => intro q hq _; simpa [applyOps] using hq
  | cons op rest ih =>
      intro q hq hall
      obtain ⟨w, hw⟩ := Option.isSome_iff_exists.mp (hall op (by simp))
      have h2 := taskStatus_applyOp_write tid q op w hw hq
      have := ih (applyOp q op) (by rw [h2]; rfl)
        (fun o ho => hall o (by simp [ho]))
      simpa [applyOps] using this

theorem taskStatus_applyOps_final (tid : String) (ops1 : List StoreOp)
    (op : StoreOp) (q : List ProcessingTask) (w : Status)
    (hq : (taskStatus tid q).isSome)
    (hall : ∀ o ∈ ops1, (writeOpFor tid o).isSome)
    (hw : writeOpFor tid op = some w) :
    taskStatus tid (applyOps q (ops1 ++ [op])) = some w := by
  have h1 := taskStatus_applyOps_write tid ops1 q hq hall
  have h2 : applyOps q (ops1 ++ [op]) = applyOp (applyOps q ops1) op := by
    simp [applyOps, List.foldl_append]
  rw [h2]
  exact taskStatus_applyOp_write tid _ op w hw h1

theorem statusHistory_add_cons (tid : String) (file : VFile)
    (q : List ProcessingTask) (rest : List StoreOp)
    (hfresh : ∀ t ∈ q, t.id ≠ tid)
    (hall : ∀ op ∈ rest, (writeOpFor tid op).isSome) :
    statusHistory tid q (.add tid file :: rest) =
      .pending :: rest.filterMap (writeOpFor tid) := by
  have h0 := taskStatus_fresh_none tid q hfresh
  have h1 := taskStatus_addToQueue_fresh tid file q hfresh
  have h2 := statusHistory_write_ops tid rest (addToQueue tid file q)
    .pending h1 hall
  simp only [statusHistory, storeStates, List.scanl_cons,
    List.filterMap_cons, List.filterMap_append, List.filterMap_nil] at h2 ⊢
  rw [show applyOp q (.add tid file) = addToQueue tid file q from rfl]
  simp [h0, h2]

theorem chain_processing_append (front : List Status)
    (hf : ∀ x ∈ front, x = Status.processing) (tail : List Status)
    (htail : List.Chain (fun a b => statusStepOk a b = true)
      .processing tail) :
    List.Chain (fun a b => statusStepOk a b = true) .processing
      (front ++ tail) := by
  induction front with
  | nil => exact htail
  | cons x rest ih =>
      have hx := hf x (by simp)
      subst hx
      exact List.Chain.cons rfl (ih (fun y hy => hf y (by simp [hy])))

theorem mapCompressionProgress_bounds (e : JSNum) :
    0 ≤ mapCompressionProgress (forwardedProgress e) ∧
    mapCompressionProgress (forwardedProgress e) ≤ 100 := by
  have h0 := clampProgress_nonneg e.mul100
  have h1 := clampProgress_le_100 e.mul100
  unfold mapCompressionProgress forwardedProgress
  constructor <;> nlinarith [h0, h1]

theorem mem_compressStageOps {tid : String} {env : RunEnv} {op : StoreOp}
    (h : op ∈ compressStageOps tid env) :
    ∃ pr, op = .update tid pr (some .processing) ∧ 0 ≤ pr ∧ pr ≤ 100 := by
  rcases List.mem_append.mp h with h1 | h2
  · simp at h1
    rcases h1 with rfl | rfl
    · exact ⟨0, rfl, by norm_num⟩
    · exact ⟨5, rfl, by norm_num⟩
  · obtain ⟨e, _, rfl⟩ := List.mem_map.mp h2
    exact ⟨_, rfl, mapCompressionProgress_bounds e⟩

theorem mem_saveStageOps {tid : String} {s : ServiceState} {env : RunEnv}
    {op : StoreOp} (h : op ∈ saveStageOps tid s env) :
    ∃ pr, op = .update tid pr (some .processing) ∧ 0 ≤ pr ∧ pr ≤ 100 := by
  unfold saveStageOps at h
  split at h
  · simp at h
    exact ⟨68, h, by norm_num⟩
  · simp at h

theorem mem_uploadStageOps {tid : String} {s : ServiceState}
    {options : ProcessingOptions} {env : RunEnv} {op : StoreOp}
    (h : op ∈ uploadStageOps tid s options env) :
    ∃ pr, op = .update tid pr (some .processing) ∧ 0 ≤ pr ∧ pr ≤ 100 := by
  unfold uploadStageOps at h
  split at h
  · rcases List.mem_append.mp h with h1 | h2
    · simp at h1
      exact ⟨70, h1, by norm_num⟩
    · split at h2
      · simp at h2
        exact ⟨90, h2, by norm_num⟩
      · simp at h2
  · simp at h

theorem mem_shortenStageOps {tid : String} {s : ServiceState}
    {options : ProcessingOptions} {env : RunEnv} {op : StoreOp}
    (h : op ∈ (shortenStage tid s options env).1) :
    ∃ pr, op = .update tid pr (some .processing) ∧ 0 ≤ pr ∧ pr ≤ 100 := by
  unfold shortenStage at h
  cases hdl : driveLink s options env with
  | none => simp only [hdl] at h; simp at h
  | some link =>
      simp only [hdl] at h
      split at h
      · cases hso : env.shortenOutcome with
        | ok shortUrl =>
            simp only [hso] at h
            simp at h
            rcases h with rfl | rfl
            · exact ⟨90, rfl, by norm_num⟩
            · exact ⟨100, rfl, by norm_num⟩
        | error m =>
            simp only [hso] at h
            simp at h
            exact ⟨90, h, by norm_num⟩
      · simp at h
        exact ⟨100, h, by norm_num⟩

theorem all_write_of_update {tid : String} {l : List StoreOp}
    (hl : ∀ op ∈ l, ∃ pr, op = .update tid pr (some .processing)) :
    ∀ op ∈ l, (writeOpFor tid op).isSome := by
  intro op hop
  obtain ⟨pr, rfl⟩ := hl op hop
  simp [writeOpFor]

theorem filterMap_write_processing {tid : String} {l : List StoreOp}
    (hl : ∀ op ∈ l, ∃ pr, op = .update tid pr (some .processing)) :
    ∀ x ∈ l.filterMap (writeOpFor tid), x = Status.processing := by
  intro x hx
  obtain ⟨op, hop, hwx⟩ := List.mem_filterMap.mp hx
  obtain ⟨pr, rfl⟩ := hl op hop
  simpa [writeOpFor, eq_comm] using hwx


/-- **C6** — Across every run of `processVideo` on a fresh task, the task's
stored status only ever moves along
`pending -> processing -> {completed | error}` (each observed transition is an
allowed step and the first observed status is `pending`); in particular when
the run fails (compression failure, the only abortive error), the final
recorded status is `error`, never `completed`. -/
theorem task_state_machine (s : ServiceState) (taskId : String) (file : VFile)
    (options : ProcessingOptions) (env : RunEnv)
    (hproc : s.isProcessing = false)
    (hfresh : ∀ t ∈ s.queue, t.id ≠ taskId) :
    List.Chain' (fun a b => statusStepOk a b = true)
      (statusHistory taskId s.queue
        (processVideo s taskId file options env).ops) ∧
    (statusHistory taskId s.queue
        (processVideo s taskId file options env).ops).head? = some .pending ∧
    ∀ msg, env.compressionOutcome = .error msg →
      taskStatus taskId
          (processVideo s taskId file options env).finalState.queue
        = some .error ∧
      taskStatus taskId
          (processVideo s taskId file options env).finalState.queue
        ≠ some .completed := by
  have hfmap : ∀ evs : List JSNum,
      List.filterMap (writeOpFor taskId)
        (evs.map fun e => StoreOp.update taskId
          (mapCompressionProgress (forwardedProgress e))
          (some .processing)) =
      evs.map (fun _ => Status.processing) := by
    intro evs
    induction evs with
    | nil => rfl
    | cons e r ih => simp [writeOpFor, ih]
  have hcf : (compressStageOps taskId env).filterMap (writeOpFor taskId) =
      .processing :: .processing ::
        env.compressionEvents.map (fun _ => Status.processing) := by
    simp [compressStageOps, List.filterMap_append, List.filterMap_cons,
      writeOpFor, hfmap]
  have hallc : ∀ op ∈ compressStageOps taskId env,
      (writeOpFor taskId op).isSome :=
    all_write_of_update (fun op hop =>
      (mem_compressStageOps hop).imp fun pr hpr => hpr.1)
  cases hco : env.compressionOutcome with
  | error msg =>
      have hops : (processVideo s taskId file options env).ops =
          .add taskId file :: (compressStageOps taskId env ++
            [.update taskId 0 (some .error),
             .fail taskId (some (wrapCompressionError msg))]) := by
        simp [processVideo, hproc, hco]
      have hq : (processVideo s taskId file options env).finalState.queue =
          applyOps s.queue ((processVideo s taskId file options env).ops) := by
        simp [processVideo, hproc, hco]
      have halltail : ∀ op ∈ compressStageOps taskId env ++
          [.update taskId 0 (some .error),
           .fail taskId (some (wrapCompressionError msg))],
          (writeOpFor taskId op).isSome := by
        intro op hop
        rcases List.mem_append.mp hop with h1 | h2
        · exact hallc op h1
        · simp at h2
          rcases h2 with rfl | rfl <;> simp [writeOpFor]
      have hhist := statusHistory_add_cons taskId file s.queue _ hfresh halltail
      have hw : (compressStageOps taskId env ++
          [StoreOp.update taskId 0 (some .error),
           StoreOp.fail taskId (some (wrapCompressionError msg))]).filterMap
            (writeOpFor taskId) =
          .processing :: .processing ::
            (env.compressionEvents.map (fun _ => Status.processing) ++
              [.error, .error]) := by
        simp [List.filterMap_append, hcf, writeOpFor]
      refine ⟨?_, ?_, ?_⟩
      · rw [hops, hhist, hw]
        show List.Chain (fun a b => statusStepOk a b = true) .pending _
        exact .cons rfl (.cons rfl
          (chain_processing_append _
            (fun x hx => by
              obtain ⟨e, _, rfl⟩ := List.mem_map.mp hx
              rfl) _
            (.cons rfl (.cons rfl .nil))))
      · rw [hops, hhist]
        rfl
      · intro msg2 hmsg2
        injection hmsg2 with hmm
        subst hmm
        have hassoc : compressStageOps taskId env ++
            [StoreOp.update taskId 0 (some .error),
             StoreOp.fail taskId (some (wrapCompressionError msg))] =
            (compressStageOps taskId env ++
              [StoreOp.update taskId 0 (some Status.error)]) ++
            [StoreOp.fail taskId (some (wrapCompressionError msg))] := by
          simp
        have hpres : (taskStatus taskId
            (addToQueue taskId file s.queue)).isSome := by
          rw [taskStatus_addToQueue_fresh taskId file s.queue hfresh]
          rfl
        have hall1 : ∀ o ∈ compressStageOps taskId env ++
            [StoreOp.update taskId 0 (some Status.error)],
            (writeOpFor taskId o).isSome := by
          intro o ho
          rcases List.mem_append.mp ho with h1 | h2
          · exact hallc o h1
          · simp at h2
            subst h2
            simp [writeOpFor]
        have hfin := taskStatus_applyOps_final taskId
          (compressStageOps taskId env ++
            [.update taskId 0 (some Status.error)])
          (.fail taskId (some (wrapCompressionError msg)))
          (addToQueue taskId file s.queue) .error hpres hall1
          (by simp [writeOpFor])
        rw [hq, hops]
        have hsplit : applyOps s.queue
            (StoreOp.add taskId file :: (compressStageOps taskId env ++
              [StoreOp.update taskId 0 (some .error),
               StoreOp.fail taskId (some (wrapCompressionError msg))])) =
            applyOps (addToQueue taskId file s.queue)
              (compressStageOps taskId env ++
                [StoreOp.update taskId 0 (some .error),
                 StoreOp.fail taskId (some (wrapCompressionError msg))]) := by
          simp [applyOps, applyOp]
        rw [hsplit, hassoc, hfin]
        simp
  | ok cf =>
      have hops : (processVideo s taskId file options env).ops =
          .add taskId file :: (compressStageOps taskId env ++
            (saveStageOps taskId s env ++
              (uploadStageOps taskId s options env ++
                ((shortenStage taskId s options env).1 ++
                  [.complete taskId
                    { compressedSize := some cf.size,
                      processingTime := some env.elapsedMs,
                      downloadUrl := some env.objectUrl,
                      shareUrl :=
                        some (shortenStage taskId s options env).2 }])))) := by
        simp [processVideo, hproc, hco, List.append_assoc, List.cons_append]
      have halltail : ∀ op ∈ compressStageOps taskId env ++
          (saveStageOps taskId s env ++
            (uploadStageOps taskId s options env ++
              ((shortenStage taskId s options env).1 ++
                [.complete taskId
                  { compressedSize := some cf.size,
                    processingTime := some env.elapsedMs,
                    downloadUrl := some env.objectUrl,
                    shareUrl :=
                      some (shortenStage taskId s options env).2 }]))),
          (writeOpFor taskId op).isSome := by
        intro op hop
        rcases List.mem_append.mp hop with h1 | hop
        · exact hallc op h1
        rcases List.mem_append.mp hop with h1 | hop
        · obtain ⟨pr, rfl, -⟩ := mem_saveStageOps h1
          simp [writeOpFor]
        rcases List.mem_append.mp hop with h1 | hop
        · obtain ⟨pr, rfl, -⟩ := mem_uploadStageOps h1
          simp [writeOpFor]
        rcases List.mem_append.mp hop with h1 | hop
        · obtain ⟨pr, rfl, -⟩ := mem_shortenStageOps h1
          simp [writeOpFor]
        · simp at hop
          subst hop
          simp [writeOpFor]
      have hhist := statusHistory_add_cons taskId file s.queue _ hfresh halltail
      have hw : (compressStageOps taskId env ++
          (saveStageOps taskId s env ++
            (uploadStageOps taskId s options env ++
              ((shortenStage taskId s options env).1 ++
                [StoreOp.complete taskId
                  { compressedSize := some cf.size,
                    processingTime := some env.elapsedMs,
                    downloadUrl := some env.objectUrl,
                    shareUrl :=
                      some (shortenStage taskId s options env).2 }])))).filterMap
            (writeOpFor taskId) =
          .processing :: .processing ::
            (env.compressionEvents.map (fun _ => Status.processing) ++
              ((saveStageOps taskId s env).filterMap (writeOpFor taskId) ++
                ((uploadStageOps taskId s options env).filterMap
                    (writeOpFor taskId) ++
                  (((shortenStage taskId s options env).1).filterMap
                      (writeOpFor taskId) ++
                    [.completed])))) := by
        simp [List.filterMap_append, hcf, writeOpFor]
      refine ⟨?_, ?_, ?_⟩
      · rw [hops, hhist, hw]
        show List.Chain (fun a b => statusStepOk a b = true) .pending _
        refine .cons rfl (.cons rfl
          (chain_processing_append _
            (fun x hx => by
              obtain ⟨e, _, rfl⟩ := List.mem_map.mp hx
              rfl) _
            (chain_processing_append _
              (filterMap_write_processing
                (fun op hop =>
                  (mem_saveStageOps hop).imp fun pr hpr => hpr.1)) _
              (chain_processing_append _
                (filterMap_write_processing
                  (fun op hop =>
                    (mem_uploadStageOps hop).imp fun pr hpr => hpr.1)) _
                (chain_processing_append _
                  (filterMap_write_processing
                    (fun op hop =>
                      (mem_shortenStageOps hop).imp fun pr hpr => hpr.1)) _
                  (.cons rfl .nil))))))
      · rw [hops, hhist]
        rfl
      · intro msg2 hmsg2
        simp at hmsg2

/-! ## Progress reporting bounds and non-monotonicity -/

/-- **C1, amended** — Every progress value reported through
`updateTaskProgress` during any `processVideo` run lies within [0,100].  The
sequence is not monotonically non-decreasing in general: it drops from the
compression-mapped value (up to 70) to 68 at the local-save step, restarts
sub-progress when the encoder falls back to the other format, and resets to 0
on the error path (see the counterexample). -/
theorem progress_reports_bounded (s : ServiceState) (taskId : String)
    (file : VFile) (options : ProcessingOptions) (env : RunEnv) (p : ℚ)
    (hp : p ∈ progressReports (processVideo s taskId file options env).ops) :
    0 ≤ p ∧ p ≤ 100 := by
  cases hproc : s.isProcessing with
  | true =>
      have h0 : (processVideo s taskId file options env).ops = [] := by
        simp [processVideo, hproc]
      rw [h0] at hp
      simp [progressReports] at hp
  | false =>
      simp only [progressReports] at hp
      obtain ⟨op, hopmem, hop⟩ := List.mem_filterMap.mp hp
      cases hco : env.compressionOutcome with
      | error msg =>
          have hops : (processVideo s taskId file options env).ops =
              .add taskId file :: (compressStageOps taskId env ++
                [.update taskId 0 (some .error),
                 .fail taskId (some (wrapCompressionError msg))]) := by
            simp [processVideo, hproc, hco]
          rw [hops] at hopmem
          rcases List.mem_cons.mp hopmem with rfl | hopmem
          · simp at hop
          rcases List.mem_append.mp hopmem with h1 | h2
          · obtain ⟨pr, rfl, hb⟩ := mem_compressStageOps h1
            obtain rfl : pr = p := by simpa using hop
            exact hb
          · simp at h2
            rcases h2 with rfl | rfl
            · obtain rfl : (0 : ℚ) = p := by simpa using hop
              norm_num
            · simp at hop
      | ok cf =>
          have hops : (processVideo s taskId file options env).ops =
              .add taskId file :: (compressStageOps taskId env ++
                (saveStageOps taskId s env ++
                  (uploadStageOps taskId s options env ++
                    ((shortenStage taskId s options env).1 ++
                      [StoreOp.complete taskId
                        { compressedSize := some cf.size,
                          processingTime := some env.elapsedMs,
                          downloadUrl := some env.objectUrl,
                          shareUrl :=
                            some (shortenStage taskId s options env).2 }])))) := by
            simp [processVideo, hproc, hco, List.append_assoc,
              List.cons_append]
          rw [hops] at hopmem
          rcases List.mem_cons.mp hopmem with rfl | hopmem
          · simp at hop
          rcases List.mem_append.mp hopmem with h1 | hopmem
          · obtain ⟨pr, rfl, hb⟩ := mem_compressStageOps h1
            obtain rfl : pr = p := by simpa using hop
            exact hb
          rcases List.mem_append.mp hopmem with h1 | hopmem
          · obtain ⟨pr, rfl, hb⟩ := mem_saveStageOps h1
            obtain rfl : pr = p := by simpa using hop
            exact hb
          rcases List.mem_append.mp hopmem with h1 | hopmem
          · obtain ⟨pr, rfl, hb⟩ := mem_uploadStageOps h1
            obtain rfl : pr = p := by simpa using hop
            exact hb
          rcases List.mem_append.mp hopmem with h1 | hopmem
          · obtain ⟨pr, rfl, hb⟩ := mem_shortenStageOps h1
            obtain rfl : pr = p := by simpa using hop
            exact hb
          · simp at hopmem
            subst hopmem
            simp at hop

/-- **C1, counterexample** — A successful run whose encoder reports 100%
(mapped to 70) with the File System Access path available reports the
sequence [0, 5, 70, 68, 70, 90, 90, 100]: the 68 after the 70 refutes
monotonicity. -/
theorem progress_drop_counterexample :
    progressReports (processVideo ⟨false, false, false, []⟩ "t1"
        ⟨"v.mp4", 9000, "video/mp4"⟩ ⟨0.8, true, true, none, none⟩
        ⟨[.fin 1], .ok ⟨"v_compressed.mp4", 5000, "video/mp4"⟩, true, true,
          true, true, .ok "https://drive.google.com/link",
          .ok "https://tinyurl.com/x", 1000, "blob:u"⟩).ops =
      [0, 5, 70, 68, 70, 90, 90, 100] ∧
    ¬ List.Chain' (fun a b : ℚ => a ≤ b)
        [0, 5, 70, 68, 70, 90, 90, 100] := by
  constructor
  · simp [processVideo, progressReports, compressStageOps, saveStageOps,
      uploadStageOps, shortenStage, driveLink, uploadWorked, savedLocally,
      dirAvailable, Except.isOk, Except.toBool, Except.toOption,
      mapCompressionProgress, forwardedProgress, clampProgress, JSNum.mul100]
    norm_num
  · simp [List.chain'_cons]
    intro h1 h2
    exact absurd h2 (by norm_num)

theorem progress_reports_bounded_witness :
    ((68 : ℚ) ∈ progressReports (processVideo ⟨false, false, false, []⟩ "t1"
        ⟨"v.mp4", 9000, "video/mp4"⟩ ⟨0.8, true, true, none, none⟩
        ⟨[.fin 1], .ok ⟨"v_compressed.mp4", 5000, "video/mp4"⟩, true, true,
          true, true, .ok "https://drive.google.com/link",
          .ok "https://tinyurl.com/x", 1000, "blob:u"⟩).ops) ∧
    ((0 : ℚ) ≤ 68 ∧ (68 : ℚ) ≤ 100) :=
  ⟨by
    simp [processVideo, progressReports, compressStageOps, saveStageOps,
      uploadStageOps, shortenStage, driveLink, uploadWorked, savedLocally,
      dirAvailable, Except.isOk, Except.toBool, Except.toOption],
   progress_reports_bounded ⟨false, false, false, []⟩ "t1"
     ⟨"v.mp4", 9000, "video/mp4"⟩ ⟨0.8, true, true, none, none⟩
     ⟨[.fin 1], .ok ⟨"v_compressed.mp4", 5000, "video/mp4"⟩, true, true,
       true, true, .ok "https://drive.google.com/link",
       .ok "https://tinyurl.com/x", 1000, "blob:u"⟩ 68 (by
      simp [processVideo, progressReports, compressStageOps, saveStageOps,
        uploadStageOps, shortenStage, driveLink, uploadWorked, savedLocally,
        dirAvailable, Except.isOk, Except.toBool, Except.toOption])⟩


theorem task_state_machine_witness :
    (ServiceState.isProcessing ⟨false, false, false, []⟩ = false) ∧
    (List.Chain' (fun a b => statusStepOk a b = true)
        (statusHistory "t1" []
          (processVideo ⟨false, false, false, []⟩ "t1"
            ⟨"v.mp4", 9000, "video/mp4"⟩ ⟨0.8, true, true, none, none⟩
            ⟨[.fin 1], .error "boom", false, false, false, false, .ok "L",
              .ok "S", 0, "u"⟩).ops)) ∧
    ((statusHistory "t1" []
        (processVideo ⟨false, false, false, []⟩ "t1"
          ⟨"v.mp4", 9000, "video/mp4"⟩ ⟨0.8, true, true, none, none⟩
          ⟨[.fin 1], .error "boom", false, false, false, false, .ok "L",
            .ok "S", 0, "u"⟩).ops).head? = some .pending) ∧
    (taskStatus "t1"
        (processVideo ⟨false, false, false, []⟩ "t1"
          ⟨"v.mp4", 9000, "video/mp4"⟩ ⟨0.8, true, true, none, none⟩
          ⟨[.fin 1], .error "boom", false, false, false, false, .ok "L",
            .ok "S", 0, "u"⟩).finalState.queue = some .error ∧
     taskStatus "t1"
        (processVideo ⟨false, false, false, []⟩ "t1"
          ⟨"v.mp4", 9000, "video/mp4"⟩ ⟨0.8, true, true, none, none⟩
          ⟨[.fin 1], .error "boom", false, false, false, false, .ok "L",
            .ok "S", 0, "u"⟩).finalState.queue ≠ some .completed) :=
  ⟨rfl,
   (task_state_machine ⟨false, false, false, []⟩ "t1"
      ⟨"v.mp4", 9000, "video/mp4"⟩ ⟨0.8, true, true, none, none⟩
      ⟨[.fin 1], .error "boom", false, false, false, false, .ok "L",
        .ok "S", 0, "u"⟩ rfl (by simp)).1,
   (task_state_machine ⟨false, false, false, []⟩ "t1"
      ⟨"v.mp4", 9000, "video/mp4"⟩ ⟨0.8, true, true, none, none⟩
      ⟨[.fin 1], .error "boom", false, false, false, false, .ok "L",
        .ok "S", 0, "u"⟩ rfl (by simp)).2.1,
   (task_state_machine ⟨false, false, false, []⟩ "t1"
      ⟨"v.mp4", 9000, "video/mp4"⟩ ⟨0.8, true, true, none, none⟩
      ⟨[.fin 1], .error "boom", false, false, false, false, .ok "L",
        .ok "S", 0, "u"⟩ rfl (by simp)).2.2 "boom" rfl⟩

end Cnvrtr
